import Mathlib

/-!
Verification of the resilient API execution pipeline of
`scripts/cloudify_deploy.py` (a Cloudify deploy runner driving a remote
manager over HTTP): shallow embedding of the transport retry loop
(`_request`), input merging (`merge_dicts`), deployment existence check
(`deployment_exists`), execution start (`start_execution`), the status
polling loop (`wait_execution`) and the control flow of `main`, together
with theorems settling the specified properties.
-/

set_option autoImplicit false

namespace CloudifyDeploy

/-- The JSON body of a response, as far as the script reads it: the script
only ever accesses the fields `value` (token), `id` (execution id) and
`status` (execution status), each via `dict.get`, so an absent field is
`none`.  A non-parseable or empty body parses to the empty dict, i.e. all
fields `none`. -/
structure RespData where
  value : Option String
  id : Option String
  status : Option String
  deriving DecidableEq

/-- The empty parsed body (`parsed = {}` in `_request`). -/
def RespData.empty : RespData := ⟨none, none, none⟩

/-- The outcome of one `requests.request` call inside `_request`'s loop:
either a response arrives (with its status code, text, and parsed body),
or the call raises a request exception (`Timeout`, `ConnectionError`,
`RequestException`), carried here as its message. -/
inductive Attempt where
  | response (status_code : Nat) (text : String) (data : RespData)
  | exc (msg : String)
  deriving DecidableEq

/-- What `_request` does in the end: return a `(status_code, text, parsed)`
triple, or raise `CloudifyAPIError("Request failed after retries: {method}
{url}: {last_exc}")` carrying the method, the URL and the last exception.
`traceShort` is a model artifact: the supplied attempt trace ended before
the loop did. -/
inductive ReqOutcome where
  | ok (status_code : Nat) (text : String) (data : RespData)
  | failedAfterRetries (method url : String) (lastExc : Option String)
  | traceShort
  deriving DecidableEq

/-- Shallow embedding of the retry loop of `_request` (lines 142-175).
`attempt` is the Python loop variable ranging over `1..retries`; the trace
`outs` supplies the outcome of each `requests.request` call in order.
Returns the outcome, the list of back-off sleeps performed (each
`time.sleep(backoff_sec * attempt)`), and the number of attempts made.
A 5xx response at `attempt < retries` sleeps and retries; any other
response is returned at once (including a 5xx on the final attempt).  An
exception at `attempt < retries` records it as `last_exc`, sleeps and
retries; on the final attempt the loop breaks and the error is raised with
the last exception. -/
def requestGo (method url : String) (retries : Nat) (backoff : ℚ)
    (attempt : Nat) (lastExc : Option String) (outs : List Attempt) :
    ReqOutcome × List ℚ × Nat :=
  if attempt > retries then (.failedAfterRetries method url lastExc, [], 0)
  else
    match outs with
    | [] => (.traceShort, [], 0)
    | .response sc text data :: rest =>
      if sc ≥ 500 ∧ attempt < retries then
        let r := requestGo method url retries backoff (attempt + 1) lastExc rest
        (r.1, backoff * (attempt : ℚ) :: r.2.1, r.2.2 + 1)
      else (.ok sc text data, [], 1)
    | .exc msg :: rest =>
      if attempt ≥ retries then (.failedAfterRetries method url (some msg), [], 1)
      else
        let r := requestGo method url retries backoff (attempt + 1) (some msg) rest
        (r.1, backoff * (attempt : ℚ) :: r.2.1, r.2.2 + 1)

/-- Default of the `retries` keyword of `_request`. -/
def defaultRetries : Nat := 5

/-- Default of the `backoff_sec` keyword of `_request`. -/
def defaultBackoff : ℚ := 1

/-- `_request` enters the loop at `attempt = 1` with `last_exc = None`. -/
def requestRun (method url : String) (retries : Nat) (backoff : ℚ)
    (outs : List Attempt) : ReqOutcome × List ℚ × Nat :=
  requestGo method url retries backoff 1 none outs

/-- An attempt outcome that `_request` treats as transient: a 5xx response
or a raised request exception (timeout / connection failure). -/
def transient (a : Attempt) : Prop :=
  match a with
  | .response sc _ _ => sc ≥ 500
  | .exc _ => True

instance (a : Attempt) : Decidable (transient a) := by
  unfold transient
  match a with
  | .response sc _ _ => exact inferInstance
  | .exc _ => exact inferInstance

/-- The value of `last_exc` after processing a list of attempt outcomes:
each exception overwrites it, responses leave it alone. -/
def lastExcAfter (le : Option String) (outs : List Attempt) : Option String :=
  outs.foldl (fun acc a => match a with | .exc m => some m | .response _ _ _ => acc) le

/-- The back-off sleeps of `n` consecutive failed attempts starting at
attempt number `attempt`: `backoff * attempt, backoff * (attempt+1), ...`. -/
def sleepSeq (backoff : ℚ) (attempt n : Nat) : List ℚ :=
  (List.range n).map (fun i => backoff * ((attempt + i : Nat) : ℚ))

/-- The `CloudifyAPIError`s (and the one `die` call) of the pipeline, one
constructor per raise site, carrying exactly the values interpolated into
the corresponding message string. -/
inductive CfyErr where
  /-- `_request` line 175: raise after exhausting retries. -/
  | requestFailedAfterRetries (method url : String) (lastExc : Option String)
  /-- `login_get_token`: HTTP error on the token request. -/
  | authHttpError (status : Nat) (url text : String)
  /-- `login_get_token`: token field absent from the response. -/
  | tokenNotFound (text : String)
  /-- `upload_blueprint_zip`: upload failed. -/
  | blueprintUploadFailed (status : Nat) (text : String)
  /-- `deployment_exists` line 246: check failed with a non-404 error. -/
  | deploymentCheckFailed (status : Nat) (deployment_id : String)
  /-- `create_deployment`: create failed. -/
  | deploymentCreateFailed (status : Nat) (text : String)
  /-- `main` line 398: `die` when the deployment is missing and
  auto-create is disabled. -/
  | deploymentMissingCreateDisabled (deployment_id : String)
  /-- `start_execution` line 296: HTTP error on the start request. -/
  | startExecutionFailed (status : Nat) (text : String)
  /-- `start_execution` line 300: execution id missing in the response. -/
  | executionIdMissing (text : String)
  /-- `wait_execution` line 312: HTTP error reading the execution. -/
  | readExecutionFailed (status : Nat) (text : String)
  /-- `wait_execution` line 321: terminal failure status observed. -/
  | executionEnded (st : String) (text : String)
  /-- `wait_execution` line 324: deadline exceeded; carries the execution
  id and the last observed status. -/
  | executionTimedOut (exec_id : String) (lastStatus : String)
  deriving DecidableEq

/-- Embedding of `deployment_exists` (lines 240-247) as a function of the
status code its `_request` call returned: `404 → false`; any other status
`≥ 400` raises the check-failed error; everything else `→ true`. -/
def deployment_exists (deployment_id : String) (status : Nat) :
    Except CfyErr Bool :=
  if status = 404 then .ok false
  else if status ≥ 400 then .error (.deploymentCheckFailed status deployment_id)
  else .ok true

/-- Python truthiness of `data.get("id")`: `None` and the empty string are
falsy, any non-empty string is truthy. -/
def pyTruthy (s : Option String) : Bool :=
  match s with
  | none => false
  | some t => t ≠ ""

/-- Embedding of `start_execution` (lines 274-302) as a function of the
`(status, text, data)` triple its `_request` call returned: status `≥ 400`
raises; then `exec_id = data.get("id")`, and `if not exec_id` (absent or
falsy) raises the missing-id error; otherwise the id is returned. -/
def start_execution (status : Nat) (text : String) (data : RespData) :
    Except CfyErr String :=
  if status ≥ 400 then .error (.startExecutionFailed status text)
  else
    match data.id with
    | none => .error (.executionIdMissing text)
    | some s => if s = "" then .error (.executionIdMissing text) else .ok s

/-- One iteration's observations in `wait_execution`'s loop: the
`(status_code, text, data)` triple returned by the poll's `_request` call,
and the value `time.time()` would return at the deadline check of this
iteration (line 323). -/
structure PollObs where
  status_code : Nat
  text : String
  data : RespData
  checkTime : Int
  deriving DecidableEq

/-- The status string the loop classifies: `data.get("status", "unknown")`. -/
def stOf (p : PollObs) : String := p.data.status.getD "unknown"

/-- How a run of `wait_execution`'s loop ends: normal return, a raised
`CloudifyAPIError`, or (model artifact) the observation trace ended while
the loop would keep polling. -/
inductive WaitResult where
  | success
  | failure (e : CfyErr)
  | pending
  deriving DecidableEq

/-- Shallow embedding of the `while True` loop of `wait_execution`
(lines 309-326), with the deadline passed in unchanged from call to call
(the Python computes it once before the loop).  Also returns the list of
`time.sleep(poll_interval_sec)` sleeps performed.  Per iteration, in
source order: status `≥ 400` raises; `"terminated"` returns success;
`"failed"`/`"cancelled"` raises the execution-ended error; then, if the
current time exceeds the deadline, raises the timeout error with the
execution id and last status; otherwise sleeps and repeats. -/
def waitLoop (exec_id : String) (deadline : Int) (poll_interval : Int) :
    List PollObs → WaitResult × List Int
  | [] => (.pending, [])
  | p :: rest =>
    if p.status_code ≥ 400 then
      (.failure (.readExecutionFailed p.status_code p.text), [])
    else if stOf p = "terminated" then (.success, [])
    else if stOf p = "failed" ∨ stOf p = "cancelled" then
      (.failure (.executionEnded (stOf p) p.text), [])
    else if p.checkTime > deadline then
      (.failure (.executionTimedOut exec_id (stOf p)), [])
    else
      let r := waitLoop exec_id deadline poll_interval rest
      (r.1, poll_interval :: r.2)

/-- `wait_execution` (line 307): the absolute deadline is computed once,
before the loop, as `time.time() + cfg.exec_timeout_sec`; `t0` is the
value `time.time()` returned there. -/
def wait_execution (exec_id : String) (t0 exec_timeout_sec poll_interval : Int)
    (polls : List PollObs) : WaitResult × List Int :=
  waitLoop exec_id (t0 + exec_timeout_sec) poll_interval polls

/-- A polled observation that the loop classifies as non-terminal and
within the deadline: no HTTP error, a status outside both terminal sets,
and a check time not past the deadline. -/
def nonTermWithin (deadline : Int) (p : PollObs) : Prop :=
  p.status_code < 400 ∧ stOf p ≠ "terminated" ∧ stOf p ≠ "failed" ∧
    stOf p ≠ "cancelled" ∧ p.checkTime ≤ deadline

instance (deadline : Int) (p : PollObs) : Decidable (nonTermWithin deadline p) := by
  unfold nonTermWithin; exact inferInstance

/-- A Python `dict` with string keys, embedded as its list of entries in
insertion order. -/
abbrev PyDict (α : Type) : Type := List (String × α)

/-- `d.get(k)`: the value of the entry with key `k`, if any (insertion
keeps keys unique, so the first match is the entry). -/
def dget {α : Type} (d : PyDict α) (k : String) : Option α :=
  (d.find? (fun p => p.1 = k)).map Prod.snd

/-- `d[k] = v`: Python dict item assignment keeps the key's position when
the key is present (rebinding its value) and appends a fresh entry
otherwise. -/
def dset {α : Type} (d : PyDict α) (k : String) (v : α) : PyDict α :=
  if d.any (fun p => p.1 = k) then
    d.map (fun p => if p.1 = k then (k, v) else p)
  else d ++ [(k, v)]

/-- Embedding of `merge_dicts` (lines 61-64): `out = dict(base)` copies the
entries, then `out.update(override)` assigns each entry of `override` in
order. -/
def merge_dicts {α : Type} (base override : PyDict α) : PyDict α :=
  override.foldl (fun out p => dset out p.1 p.2) base

/-- `main` line 390: the temporary archive path, derived from the
blueprint id. -/
def tmp_zip (blueprint_id : String) : String :=
  "/tmp/" ++ blueprint_id ++ ".zip"

/-- The outcomes of the pipeline stages that `main` (lines 392-410) calls
after building the archive, each as the stage's Python function would
return or raise, plus whether the final `os.remove(tmp_zip)` would succeed
(`removeOk = false` models `os.remove` raising `OSError`). -/
structure RunOutcomes where
  loginR : Except CfyErr String
  uploadR : Except CfyErr Unit
  existsR : Except CfyErr Bool
  createR : Except CfyErr Unit
  startR : Except CfyErr String
  waitR : Except CfyErr Unit
  removeOk : Bool

instance {ε α : Type} [DecidableEq ε] [DecidableEq α] :
    DecidableEq (Except ε α) := fun x y =>
  match x, y with
  | .error a, .error b =>
    if h : a = b then .isTrue (congrArg Except.error h)
    else .isFalse (fun hc => h (Except.error.inj hc))
  | .error _, .ok _ => .isFalse (fun hc => Except.noConfusion hc)
  | .ok _, .error _ => .isFalse (fun hc => Except.noConfusion hc)
  | .ok a, .ok b =>
    if h : a = b then .isTrue (congrArg Except.ok h)
    else .isFalse (fun hc => h (Except.ok.inj hc))

/-- What a run of `main`'s pipeline yields: the propagated result, whether
the cleanup `os.remove(tmp_zip)` was attempted, and whether the file was
actually removed. -/
structure RunResult where
  result : Except CfyErr Unit
  removeAttempted : Bool
  removed : Bool
  deriving DecidableEq

/-- Embedding of the control flow of `main` after the archive is built
(lines 392-410): login, upload, conditional create, start, optional wait,
then cleanup.  Each raised error propagates out of `main` at once — the
cleanup block sits at the end of the function body, not in a `finally`, so
it runs only when every stage before it returned normally.  When it does
run, an `OSError` from `os.remove` is swallowed (`except OSError: pass`),
so a failed removal does not change the result. -/
def mainRun (deployment_id : String) (create_if_missing wait : Bool)
    (o : RunOutcomes) : RunResult :=
  match o.loginR with
  | .error e => ⟨.error e, false, false⟩
  | .ok _token =>
    match o.uploadR with
    | .error e => ⟨.error e, false, false⟩
    | .ok _ =>
      match o.existsR with
      | .error e => ⟨.error e, false, false⟩
      | .ok depExists =>
        let created : Except CfyErr Unit :=
          if !depExists then
            if !create_if_missing then
              .error (.deploymentMissingCreateDisabled deployment_id)
            else o.createR
          else .ok ()
        match created with
        | .error e => ⟨.error e, false, false⟩
        | .ok _ =>
          match o.startR with
          | .error e => ⟨.error e, false, false⟩
          | .ok _exec_id =>
            match (if wait then o.waitR else .ok ()) with
            | .error e => ⟨.error e, false, false⟩
            | .ok _ => ⟨.ok (), true, o.removeOk⟩

/-! ## Lemmas about the transport retry loop -/

theorem sleepSeq_zero (b : ℚ) (attempt : Nat) : sleepSeq b attempt 0 = [] := rfl

theorem sleepSeq_succ (b : ℚ) (attempt n : Nat) :
    sleepSeq b attempt (n + 1) = b * (attempt : ℚ) :: sleepSeq b (attempt + 1) n := by
  unfold sleepSeq
  rw [List.range_succ_eq_map]
  simp only [List.map_cons, List.map_map, Nat.add_zero, Nat.cast_add]
  refine congrArg₂ _ (by push_cast; ring) ?_
  refine List.map_congr_left ?_
  intro i _
  simp only [Function.comp]
  congr 1
  push_cast
  ring

theorem lastExcAfter_nil (le : Option String) : lastExcAfter le [] = le := rfl

theorem lastExcAfter_cons_response (le : Option String) (sc : Nat) (t : String)
    (d : RespData) (outs : List Attempt) :
    lastExcAfter le (.response sc t d :: outs) = lastExcAfter le outs := rfl

theorem lastExcAfter_cons_exc (le : Option String) (msg : String)
    (outs : List Attempt) :
    lastExcAfter le (.exc msg :: outs) = lastExcAfter (some msg) outs := rfl

/-- Running the loop through a block of consecutive transient failures that
fit strictly inside the retry budget: the loop sleeps once per failure with
linearly growing back-off, updates `last_exc`, and continues at the attempt
number past the block. -/
theorem requestGo_transient_block (m u : String) (R : Nat) (b : ℚ) :
    ∀ (fails : List Attempt) (attempt : Nat) (le : Option String)
      (rest : List Attempt),
      (∀ f ∈ fails, transient f) → attempt + fails.length ≤ R →
      requestGo m u R b attempt le (fails ++ rest)
        = ((requestGo m u R b (attempt + fails.length) (lastExcAfter le fails) rest).1,
           sleepSeq b attempt fails.length
             ++ (requestGo m u R b (attempt + fails.length) (lastExcAfter le fails) rest).2.1,
           fails.length
             + (requestGo m u R b (attempt + fails.length) (lastExcAfter le fails) rest).2.2) := by
  intro fails
  induction fails with
  | nil =>
    intro attempt le rest _ _
    simp [sleepSeq_zero, lastExcAfter_nil]
  | cons f fs ih =>
    intro attempt le rest hall hle
    have hlt : attempt < R := by
      have := hle
      simp only [List.length_cons] at this
      omega
    have hngt : ¬ attempt > R := by omega
    cases f with
    | response sc t d =>
      have h500 : sc ≥ 500 := hall _ (List.mem_cons_self _ _)
      have hcond : sc ≥ 500 ∧ attempt < R := ⟨h500, hlt⟩
      rw [List.cons_append, requestGo]
      simp only [if_neg hngt, if_pos hcond]
      rw [ih (attempt + 1) le rest (fun g hg => hall g (List.mem_cons_of_mem _ hg))
            (by simp only [List.length_cons] at hle; omega)]
      simp only [List.length_cons, lastExcAfter_cons_response]
      have harith : attempt + 1 + fs.length = attempt + (fs.length + 1) := by omega
      rw [harith, sleepSeq_succ]
      simp only [List.cons_append, Prod.mk.injEq, true_and]
      omega
    | exc msg =>
      have hnge : ¬ attempt ≥ R := by omega
      rw [List.cons_append, requestGo]
      simp only [if_neg hngt, if_neg hnge]
      rw [ih (attempt + 1) (some msg) rest (fun g hg => hall g (List.mem_cons_of_mem _ hg))
            (by simp only [List.length_cons] at hle; omega)]
      simp only [List.length_cons, lastExcAfter_cons_exc]
      have harith : attempt + 1 + fs.length = attempt + (fs.length + 1) := by omega
      rw [harith, sleepSeq_succ]
      simp only [List.cons_append, Prod.mk.injEq, true_and]
      omega

/-- At the final attempt, a raised exception breaks the loop and the
transport error is raised with that exception as the last cause. -/
theorem requestGo_exc_at_final (m u : String) (R : Nat) (b : ℚ)
    (le : Option String) (msg : String) (rest : List Attempt) :
    requestGo m u R b R le (.exc msg :: rest)
      = (.failedAfterRetries m u (some msg), [], 1) := by
  rw [requestGo]
  simp

/-- Any response received at an attempt within the budget that is not a
retried 5xx (here: any status below 500) is returned immediately, with no
further attempt and no back-off sleep. -/
theorem requestGo_response_returns (m u : String) (R : Nat) (b : ℚ)
    (attempt : Nat) (le : Option String) (sc : Nat) (t : String) (d : RespData)
    (rest : List Attempt) (hle : attempt ≤ R) (hsc : sc < 500) :
    requestGo m u R b attempt le (.response sc t d :: rest)
      = (.ok sc t d, [], 1) := by
  rw [requestGo]
  have hngt : ¬ attempt > R := by omega
  have hcond : ¬ (sc ≥ 500 ∧ attempt < R) := by
    intro hc
    omega
  simp [if_neg hngt, if_neg hcond]

/-- A 5xx response received exactly at the final attempt is returned as a
normal result (the retry guard requires `attempt < retries`). -/
theorem requestGo_response_at_final (m u : String) (R : Nat) (b : ℚ)
    (le : Option String) (sc : Nat) (t : String) (d : RespData)
    (rest : List Attempt) :
    requestGo m u R b R le (.response sc t d :: rest)
      = (.ok sc t d, [], 1) := by
  rw [requestGo]
  have hngt : ¬ R > R := by omega
  have hcond : ¬ (sc ≥ 500 ∧ R < R) := by
    intro hc
    omega
  simp [if_neg hngt, if_neg hcond]

/-! ## C1: behavior on exhausting retries -/

/-- C1 (counterexample to the claim as stated): with the default retry
count 5, a request whose five attempts all return HTTP 500 — transient
failures throughout — does NOT raise a transport error: `_request` returns
the final 5xx response as a normal result (the retry guard is
`status >= 500 and attempt < retries`, so the last attempt's response
falls through to `return`). -/
theorem c1_counterexample :
    (requestRun "GET" "http://mgr/api/v3.1/executions" defaultRetries
        defaultBackoff
        (List.replicate 5 (Attempt.response 500 "server error" RespData.empty))).1
        = .ok 500 "server error" RespData.empty
      ∧ (requestRun "GET" "http://mgr/api/v3.1/executions" defaultRetries
          defaultBackoff
          (List.replicate 5 (Attempt.response 500 "server error" RespData.empty))).2.2
        = 5 := by
  constructor <;> decide

/-- C1 (amended): when every attempt raises a connection failure or
timeout, `_request` makes exactly `retries` attempts and then fails with a
transport error embedding the method, the URL, and the last raised
exception; but when the attempts end with a 5xx response on the final
attempt (after any run of transient failures), `_request` instead returns
that 5xx response as a normal result, again after exactly `retries`
attempts. -/
theorem c1_retry_exhaustion (m u : String) (b : ℚ) :
    (∀ (msgs : List String) (h : msgs ≠ []) (rest : List Attempt),
        (requestRun m u msgs.length b (msgs.map Attempt.exc ++ rest)).1
            = .failedAfterRetries m u (some (msgs.getLast h))
          ∧ (requestRun m u msgs.length b (msgs.map Attempt.exc ++ rest)).2.2
            = msgs.length)
    ∧ (∀ (fails : List Attempt) (sc : Nat) (t : String) (d : RespData)
        (rest : List Attempt),
        (∀ f ∈ fails, transient f) → 500 ≤ sc →
        (requestRun m u (fails.length + 1) b
              (fails ++ Attempt.response sc t d :: rest)).1 = .ok sc t d
          ∧ (requestRun m u (fails.length + 1) b
              (fails ++ Attempt.response sc t d :: rest)).2.2
            = fails.length + 1) := by
  constructor
  · intro msgs h rest
    rcases List.eq_nil_or_concat' msgs with hnil | ⟨init, last, rfl⟩
    · exact absurd hnil h
    have hmap : (init ++ [last]).map Attempt.exc ++ rest
        = init.map Attempt.exc ++ (Attempt.exc last :: rest) := by
      simp
    have hlen : (init ++ [last]).length = init.length + 1 := by simp
    rw [requestRun, hmap, hlen]
    rw [requestGo_transient_block m u (init.length + 1) b (init.map Attempt.exc)
          1 none (Attempt.exc last :: rest)
          (by
            intro f hf
            simp only [List.mem_map] at hf
            obtain ⟨x, _, rfl⟩ := hf
            trivial)
          (by simp only [List.length_map]; omega)]
    have hatt : 1 + (init.map Attempt.exc).length = init.length + 1 := by
      simp only [List.length_map]
      omega
    rw [hatt, requestGo_exc_at_final]
    simp [List.getLast_append_singleton]
  · intro fails sc t d rest hall hsc
    rw [requestRun,
        requestGo_transient_block m u (fails.length + 1) b fails 1 none
          (Attempt.response sc t d :: rest) hall (by omega)]
    have hatt : 1 + fails.length = fails.length + 1 := by omega
    rw [hatt, requestGo_response_at_final]
    simp

/-- C1 witness: two consecutive connection failures with `retries = 2`
exhaust the budget and raise the transport error carrying the method, URL
and the second exception. -/
theorem c1_witness :
    (requestRun "GET" "u" 2 1 (["boom", "crash"].map Attempt.exc ++ [])).1
        = .failedAfterRetries "GET" "u"
            (some (["boom", "crash"].getLast (by decide)))
      ∧ (requestRun "GET" "u" 2 1 (["boom", "crash"].map Attempt.exc ++ [])).2.2
        = 2 :=
  (c1_retry_exhaustion "GET" "u" 1).1 ["boom", "crash"] (by decide) []

/-! ## C6: linear backoff then success -/

/-- C6 (counterexample to the claim as stated): at the boundary
`N = retry-limit`, a sequence of 5 transient failures followed by an
available success response does NOT yield the success result with the
default `retries = 5`: the loop's budget is exhausted by the failures and
`_request` raises, never reaching the sixth call. -/
theorem c6_counterexample :
    (requestRun "GET" "u" defaultRetries defaultBackoff
        (List.replicate 5 (Attempt.exc "connection reset")
          ++ [Attempt.response 200 "ok" RespData.empty])).1
      = .failedAfterRetries "GET" "u" (some "connection reset") := by
  decide

/-- C6 (amended): for any sequence of `N ≤ retry-limit - 1` transient
failures (5xx responses, connection failures or timeouts, in any mix)
followed by a successful response, `_request` returns that success result
after `N + 1` attempts, having slept exactly
`backoff * 1, backoff * 2, ..., backoff * N` seconds — `backoff * k` after
failed attempt `k`, i.e. before attempt `k + 1`. -/
theorem c6_backoff_then_success (m u : String) (R : Nat) (b : ℚ)
    (fails : List Attempt) (sc : Nat) (t : String) (d : RespData)
    (rest : List Attempt) (hall : ∀ f ∈ fails, transient f)
    (hlen : fails.length < R) (hsc : sc < 500) :
    requestRun m u R b (fails ++ Attempt.response sc t d :: rest)
      = (.ok sc t d, sleepSeq b 1 fails.length, fails.length + 1) := by
  rw [requestRun,
      requestGo_transient_block m u R b fails 1 none
        (Attempt.response sc t d :: rest) hall (by omega)]
  rw [requestGo_response_returns m u R b (1 + fails.length)
        (lastExcAfter none fails) sc t d rest (by omega) hsc]
  simp

/-- C6 witness: a timeout then a 503 then a 200 with `retries = 5`:
`_request` returns the 200 result after 3 attempts, sleeping
`1 * 1` then `1 * 2` seconds. -/
theorem c6_witness :
    requestRun "GET" "u" 5 1
        ([Attempt.exc "timeout", Attempt.response 503 "bad gateway" RespData.empty]
          ++ Attempt.response 200 "ok" RespData.empty :: [])
      = (.ok 200 "ok" RespData.empty, sleepSeq 1 1 2, 3) :=
  c6_backoff_then_success "GET" "u" 5 1
    [Attempt.exc "timeout", Attempt.response 503 "bad gateway" RespData.empty]
    200 "ok" RespData.empty [] (by decide) (by decide) (by decide)

/-! ## C7: 4xx is permanent, never retried -/

/-- C7: a 4xx response received at any attempt within the budget is
returned immediately as `_request`'s result: one attempt consumed at that
point, no back-off sleep, and the rest of the trace — whatever it holds —
is never touched (no further retry attempts). -/
theorem c7_no_retry_on_4xx (m u : String) (R : Nat) (b : ℚ) (attempt : Nat)
    (le : Option String) (sc : Nat) (t : String) (d : RespData)
    (rest : List Attempt) (hle : attempt ≤ R) (_h4 : 400 ≤ sc)
    (hsc : sc < 500) :
    requestGo m u R b attempt le (Attempt.response sc t d :: rest)
      = (.ok sc t d, [], 1) :=
  requestGo_response_returns m u R b attempt le sc t d rest hle hsc

/-- C7 witness: a 404 on the first attempt is returned at once even though
the trace offers another outcome. -/
theorem c7_witness :
    requestGo "GET" "u" 5 1 1 none
        [Attempt.response 404 "not found" RespData.empty, Attempt.exc "x"]
      = (.ok 404 "not found" RespData.empty, [], 1) :=
  c7_no_retry_on_4xx "GET" "u" 5 1 1 none 404 "not found" RespData.empty
    [Attempt.exc "x"] (by decide) (by decide) (by decide)

/-! ## C5: existence-check status classification -/

/-- C5: `deployment_exists` returns `false` exactly on a 404, returns
`true` for every 2xx, and for any other status `≥ 400` raises the
distinct existence-check error (carrying the status and the deployment
id) rather than silently returning `false`. -/
theorem c5_exists_classification (did : String) (s : Nat) :
    (s = 404 → deployment_exists did s = .ok false)
    ∧ (200 ≤ s → s < 300 → deployment_exists did s = .ok true)
    ∧ (400 ≤ s → s ≠ 404 →
        deployment_exists did s = .error (.deploymentCheckFailed s did)) := by
  refine ⟨fun h404 => ?_, fun h2 h3 => ?_, fun h4 hne => ?_⟩
  · rw [deployment_exists, if_pos h404]
  · rw [deployment_exists, if_neg (by omega), if_neg (by omega)]
  · rw [deployment_exists, if_neg hne, if_pos h4]

/-- C5 witness: 404 gives `false`, 200 gives `true`, 500 raises the
check-failed error. -/
theorem c5_witness :
    deployment_exists "dep" 404 = .ok false
      ∧ deployment_exists "dep" 200 = .ok true
      ∧ deployment_exists "dep" 500
        = .error (.deploymentCheckFailed 500 "dep") :=
  ⟨(c5_exists_classification "dep" 404).1 rfl,
   (c5_exists_classification "dep" 200).2.1 (by decide) (by decide),
   (c5_exists_classification "dep" 500).2.2 (by decide) (by decide)⟩

/-! ## C10: execution handles are never empty -/

/-- C10: `start_execution` raises the missing-execution-id error whenever
the response's `id` field is absent or empty (Python-falsy), so every
handle it returns is a non-empty string. -/
theorem c10_exec_id_nonempty :
    (∀ (sc : Nat) (t : String) (d : RespData) (s : String),
        start_execution sc t d = .ok s → s ≠ "")
    ∧ (∀ (sc : Nat) (t : String) (d : RespData),
        sc < 400 → (d.id = none ∨ d.id = some "") →
        start_execution sc t d = .error (.executionIdMissing t)) := by
  constructor
  · intro sc t d s hok
    rw [start_execution] at hok
    by_cases h4 : sc ≥ 400
    · rw [if_pos h4] at hok
      exact absurd hok (by simp)
    rw [if_neg h4] at hok
    cases hid : d.id with
    | none =>
      rw [hid] at hok
      exact absurd hok (by simp)
    | some v =>
      rw [hid] at hok
      have hok' :
          (if v = "" then (Except.error (CfyErr.executionIdMissing t) :
              Except CfyErr String)
            else Except.ok v) = Except.ok s := hok
      by_cases hv : v = ""
      · rw [if_pos hv] at hok'
        exact absurd hok' (by simp)
      · rw [if_neg hv] at hok'
        intro hs
        apply hv
        rw [← hs]
        exact Except.ok.inj hok'
  · intro sc t d h4 hid
    rw [start_execution, if_neg (by omega)]
    rcases hid with h | h <;> (rw [h]; try rfl)

/-- C10 witness: a 201 response whose body carries an empty `id` raises
the missing-id error; the first conjunct applied to a run that returned
`"exec-7"` shows the handle is non-empty. -/
theorem c10_witness :
    start_execution 201 "body" ⟨none, some "", none⟩
        = .error (.executionIdMissing "body")
      ∧ "exec-7" ≠ "" :=
  ⟨c10_exec_id_nonempty.2 201 "body" ⟨none, some "", none⟩ (by decide)
      (Or.inr rfl),
   c10_exec_id_nonempty.1 200 "b" ⟨none, some "exec-7", none⟩ "exec-7" rfl⟩

/-! ## Lemmas about the polling loop -/

/-- A non-terminal in-deadline observation makes the loop sleep once and
continue on the remaining observations, with the same deadline. -/
theorem waitLoop_nonterm_cons (e : String) (dl pi : Int) (q : PollObs)
    (polls : List PollObs) (h : nonTermWithin dl q) :
    waitLoop e dl pi (q :: polls)
      = ((waitLoop e dl pi polls).1, pi :: (waitLoop e dl pi polls).2) := by
  obtain ⟨h1, h2, h3, h4, h5⟩ := h
  rw [waitLoop]
  simp only [if_neg (show ¬ q.status_code ≥ 400 by omega), if_neg h2,
    if_neg (show ¬ (stOf q = "failed" ∨ stOf q = "cancelled") by simp [h3, h4]),
    if_neg (show ¬ q.checkTime > dl by omega)]

/-- Running the loop through a block of non-terminal in-deadline
observations: one sleep per observation, then the loop continues on the
remaining observations with the same deadline. -/
theorem waitLoop_nonterm_run (e : String) (dl pi : Int) :
    ∀ (pre polls : List PollObs), (∀ q ∈ pre, nonTermWithin dl q) →
      waitLoop e dl pi (pre ++ polls)
        = ((waitLoop e dl pi polls).1,
           List.replicate pre.length pi ++ (waitLoop e dl pi polls).2) := by
  intro pre
  induction pre with
  | nil =>
    intro polls _
    simp
  | cons q qs ih =>
    intro polls hall
    rw [List.cons_append,
        waitLoop_nonterm_cons e dl pi q (qs ++ polls)
          (hall q (List.mem_cons_self _ _)),
        ih polls (fun r hr => hall r (List.mem_cons_of_mem _ hr))]
    simp [List.replicate_succ]

/-- The loop raises the timeout error only after actually observing a
non-terminal status past the deadline: the carried status was polled, was
not an HTTP error, and belongs to neither terminal set. -/
theorem waitLoop_timeout_from_nonterm (e : String) (dl pi : Int) (s : String) :
    ∀ polls : List PollObs,
      (waitLoop e dl pi polls).1 = .failure (.executionTimedOut e s) →
      ∃ q ∈ polls, q.status_code < 400 ∧ stOf q = s ∧ s ≠ "terminated"
        ∧ s ≠ "failed" ∧ s ≠ "cancelled" ∧ dl < q.checkTime := by
  intro polls
  induction polls with
  | nil =>
    intro h
    exact absurd h (by simp [waitLoop])
  | cons p rest ih =>
    intro h
    rw [waitLoop] at h
    by_cases hs4 : p.status_code ≥ 400
    · rw [if_pos hs4] at h
      simp at h
    rw [if_neg hs4] at h
    by_cases hterm : stOf p = "terminated"
    · rw [if_pos hterm] at h
      simp at h
    rw [if_neg hterm] at h
    by_cases hfail : stOf p = "failed" ∨ stOf p = "cancelled"
    · rw [if_pos hfail] at h
      simp at h
    rw [if_neg hfail] at h
    by_cases htime : p.checkTime > dl
    · rw [if_pos htime] at h
      have hss : stOf p = s := by
        have h' :
            WaitResult.failure (.executionTimedOut e (stOf p))
              = WaitResult.failure (.executionTimedOut e s) := h
        simpa using h'
      subst hss
      push_neg at hfail
      exact ⟨p, List.mem_cons_self _ _, by omega, rfl, hterm, hfail.1,
        hfail.2, by omega⟩
    · rw [if_neg htime] at h
      obtain ⟨q, hq, hrest⟩ := ih h
      exact ⟨q, List.mem_cons_of_mem _ hq, hrest⟩

/-! ## C3: fixed deadline and the timeout error -/

/-- C3: the deadline is the time at loop entry (`t0`) plus the configured
execution timeout and is threaded unchanged through the iterations; an
observed non-terminal status whose check time exceeds it makes the loop
fail with the timeout error carrying the execution handle and that last
observed status (no failure status needed); an observed non-terminal
status within the deadline makes the loop sleep the configured poll
interval and continue on the remaining polls against the very same
`t0 + timeout` deadline. -/
theorem c3_deadline_once_and_timeout (e : String) (t0 timeout pi : Int)
    (p : PollObs) (rest : List PollObs) (hsc : p.status_code < 400)
    (hterm : stOf p ≠ "terminated") (hfail : stOf p ≠ "failed")
    (hcanc : stOf p ≠ "cancelled") :
    (t0 + timeout < p.checkTime →
        wait_execution e t0 timeout pi (p :: rest)
          = (.failure (.executionTimedOut e (stOf p)), []))
    ∧ (p.checkTime ≤ t0 + timeout →
        wait_execution e t0 timeout pi (p :: rest)
          = ((waitLoop e (t0 + timeout) pi rest).1,
             pi :: (waitLoop e (t0 + timeout) pi rest).2)) := by
  constructor
  · intro ht
    rw [wait_execution, waitLoop]
    simp only [if_neg (show ¬ p.status_code ≥ 400 by omega), if_neg hterm,
      if_neg (show ¬ (stOf p = "failed" ∨ stOf p = "cancelled") by
        simp [hfail, hcanc]),
      if_pos (show p.checkTime > t0 + timeout by omega)]
  · intro ht
    exact waitLoop_nonterm_cons e (t0 + timeout) pi p rest
      ⟨hsc, hterm, hfail, hcanc, ht⟩

/-- C3 witness: with entry time 0, timeout 30 and poll interval 10, a
"pending" status checked at time 31 times out carrying the handle and
"pending"; the same status checked at time 20 sleeps 10 and polls again. -/
theorem c3_witness :
    wait_execution "e1" 0 30 10 [⟨200, "t", ⟨none, none, some "pending"⟩, 31⟩]
        = (.failure (.executionTimedOut "e1" "pending"), [])
      ∧ wait_execution "e1" 0 30 10
          [⟨200, "t", ⟨none, none, some "pending"⟩, 20⟩]
        = ((waitLoop "e1" 30 10 []).1, 10 :: (waitLoop "e1" 30 10 []).2) :=
  ⟨(c3_deadline_once_and_timeout "e1" 0 30 10
      ⟨200, "t", ⟨none, none, some "pending"⟩, 31⟩ [] (by decide) (by decide)
      (by decide) (by decide)).1 (by decide),
   (c3_deadline_once_and_timeout "e1" 0 30 10
      ⟨200, "t", ⟨none, none, some "pending"⟩, 20⟩ [] (by decide) (by decide)
      (by decide) (by decide)).2 (by decide)⟩

/-! ## C4: first terminal status decides the outcome -/

/-- C4: after any run of non-terminal in-deadline polls, the first poll
whose status is the success-terminal value "terminated" makes the loop
return success; the first poll whose status is in the failure-terminal set
makes it fail at once with the execution-ended error carrying that last
response's text, and the result does not depend on whatever observations
would follow (no further polling); and any other status string — whatever
it is — is non-terminal: the loop just sleeps and continues. -/
theorem c4_first_terminal_decides (e : String) (t0 timeout pi : Int)
    (pre : List PollObs) (p : PollObs) (rest : List PollObs)
    (hpre : ∀ q ∈ pre, nonTermWithin (t0 + timeout) q)
    (hsc : p.status_code < 400) :
    (stOf p = "terminated" →
        (wait_execution e t0 timeout pi (pre ++ p :: rest)).1 = .success)
    ∧ ((stOf p = "failed" ∨ stOf p = "cancelled") →
        ∀ rest2 : List PollObs,
          (wait_execution e t0 timeout pi (pre ++ p :: rest)).1
            = .failure (.executionEnded (stOf p) p.text)
          ∧ (wait_execution e t0 timeout pi (pre ++ p :: rest)).1
            = (wait_execution e t0 timeout pi (pre ++ p :: rest2)).1)
    ∧ (nonTermWithin (t0 + timeout) p →
        wait_execution e t0 timeout pi (p :: rest)
          = ((waitLoop e (t0 + timeout) pi rest).1,
             pi :: (waitLoop e (t0 + timeout) pi rest).2)) := by
  have hrun := waitLoop_nonterm_run e (t0 + timeout) pi pre
  refine ⟨fun hterm => ?_, fun hfail rest2 => ?_, fun hnt => ?_⟩
  · rw [wait_execution, hrun (p :: rest) hpre, waitLoop]
    simp only [if_neg (show ¬ p.status_code ≥ 400 by omega), if_pos hterm]
  · have hterm : ¬ stOf p = "terminated" := by
      rcases hfail with h | h <;> rw [h] <;> decide
    constructor
    · rw [wait_execution, hrun (p :: rest) hpre, waitLoop]
      simp only [if_neg (show ¬ p.status_code ≥ 400 by omega), if_neg hterm,
        if_pos hfail]
    · rw [wait_execution, wait_execution, hrun (p :: rest) hpre,
          hrun (p :: rest2) hpre, waitLoop, waitLoop]
      simp only [if_neg (show ¬ p.status_code ≥ 400 by omega), if_neg hterm,
        if_pos hfail]
  · exact waitLoop_nonterm_cons e (t0 + timeout) pi p rest hnt

/-- C4 witness: three "pending" polls then "terminated" succeed; a
"failed" first poll ends the run at once with the execution-ended error,
independently of a trace that would continue with "terminated"; and the
unrecognized status "banana" is treated as non-terminal. -/
theorem c4_witness :
    (wait_execution "e1" 0 3600 10
        ([⟨200, "a", ⟨none, none, some "pending"⟩, 0⟩,
          ⟨200, "b", ⟨none, none, some "pending"⟩, 10⟩,
          ⟨200, "c", ⟨none, none, some "pending"⟩, 20⟩]
          ++ ⟨200, "d", ⟨none, none, some "terminated"⟩, 30⟩ :: [])).1
      = .success
    ∧ (wait_execution "e1" 0 3600 10
          ([] ++ ⟨200, "boom", ⟨none, none, some "failed"⟩, 0⟩ :: [])).1
      = .failure (.executionEnded "failed" "boom")
    ∧ wait_execution "e1" 0 3600 10
          [⟨200, "x", ⟨none, none, some "banana"⟩, 0⟩]
      = ((waitLoop "e1" 3600 10 []).1, 10 :: (waitLoop "e1" 3600 10 []).2) :=
  ⟨(c4_first_terminal_decides "e1" 0 3600 10
      [⟨200, "a", ⟨none, none, some "pending"⟩, 0⟩,
       ⟨200, "b", ⟨none, none, some "pending"⟩, 10⟩,
       ⟨200, "c", ⟨none, none, some "pending"⟩, 20⟩]
      ⟨200, "d", ⟨none, none, some "terminated"⟩, 30⟩ [] (by decide)
      (by decide)).1 (by decide),
   ((c4_first_terminal_decides "e1" 0 3600 10 []
      ⟨200, "boom", ⟨none, none, some "failed"⟩, 0⟩ [] (by decide)
      (by decide)).2.1 (Or.inl (by decide))
      [⟨200, "z", ⟨none, none, some "terminated"⟩, 10⟩]).1,
   (c4_first_terminal_decides "e1" 0 3600 10 []
      ⟨200, "x", ⟨none, none, some "banana"⟩, 0⟩ [] (by decide)
      (by decide)).2.2 (by decide)⟩

/-! ## C9: terminal classification happens before the deadline check -/

/-- C9: within an iteration the loop classifies the polled status before
looking at the clock: a terminal status on any poll — the first included —
yields the success or execution-failed outcome for every value of the
configured timeout, zero and negative values included (the deadline
`t0 + timeout` is then already in the past); and conversely the timeout
error can only arise from actually observing a non-terminal status past
the deadline, so a status request is always made before any timeout. -/
theorem c9_classification_first (e : String) (t0 timeout pi : Int)
    (p : PollObs) (rest polls : List PollObs) (s : String) :
    (p.status_code < 400 → stOf p = "terminated" →
        wait_execution e t0 timeout pi (p :: rest) = (.success, []))
    ∧ (p.status_code < 400 → (stOf p = "failed" ∨ stOf p = "cancelled") →
        wait_execution e t0 timeout pi (p :: rest)
          = (.failure (.executionEnded (stOf p) p.text), []))
    ∧ ((wait_execution e t0 timeout pi polls).1
          = .failure (.executionTimedOut e s) →
        ∃ q ∈ polls, q.status_code < 400 ∧ stOf q = s ∧ s ≠ "terminated"
          ∧ s ≠ "failed" ∧ s ≠ "cancelled" ∧ t0 + timeout < q.checkTime) := by
  refine ⟨fun hsc hterm => ?_, fun hsc hfail => ?_, fun h => ?_⟩
  · rw [wait_execution, waitLoop]
    simp only [if_neg (show ¬ p.status_code ≥ 400 by omega), if_pos hterm]
  · have hterm : ¬ stOf p = "terminated" := by
      rcases hfail with h | h <;> rw [h] <;> decide
    rw [wait_execution, waitLoop]
    simp only [if_neg (show ¬ p.status_code ≥ 400 by omega), if_neg hterm,
      if_pos hfail]
  · exact waitLoop_timeout_from_nonterm e (t0 + timeout) pi s polls h

/-- C9 witness: with a zero timeout and a negative timeout, a terminal
status on the very first poll still yields the terminal outcome, not a
timeout; and a timeout error that did occur exhibits the non-terminal
status it observed. -/
theorem c9_witness :
    wait_execution "e1" 50 0 10 [⟨200, "t", ⟨none, none, some "terminated"⟩, 50⟩]
        = (.success, [])
      ∧ wait_execution "e1" 50 (-10) 10
          [⟨200, "w", ⟨none, none, some "cancelled"⟩, 50⟩]
        = (.failure (.executionEnded "cancelled" "w"), [])
      ∧ ((wait_execution "e1" 0 1 10
            [⟨200, "t", ⟨none, none, some "pending"⟩, 100⟩]).1
            = .failure (.executionTimedOut "e1" "pending") →
          ∃ q ∈ [(⟨200, "t", ⟨none, none, some "pending"⟩, 100⟩ : PollObs)],
            q.status_code < 400 ∧ stOf q = "pending" ∧ "pending" ≠ "terminated"
              ∧ "pending" ≠ "failed" ∧ "pending" ≠ "cancelled"
              ∧ 0 + 1 < q.checkTime) :=
  ⟨(c9_classification_first "e1" 50 0 10
      ⟨200, "t", ⟨none, none, some "terminated"⟩, 50⟩ [] [] "s").1 (by decide)
      (by decide),
   (c9_classification_first "e1" 50 (-10) 10
      ⟨200, "w", ⟨none, none, some "cancelled"⟩, 50⟩ [] [] "s").2.1 (by decide)
      (Or.inr (by decide)),
   (c9_classification_first "e1" 0 1 10
      ⟨200, "t", ⟨none, none, some "pending"⟩, 100⟩ []
      [⟨200, "t", ⟨none, none, some "pending"⟩, 100⟩] "pending").2.2⟩

/-! ## Lemmas about dict lookup, assignment and merging -/

theorem dget_eq_none {α : Type} (d : PyDict α) (q : String)
    (h : q ∉ d.map Prod.fst) : dget d q = none := by
  rw [dget]
  have hf : d.find? (fun p => decide (p.1 = q)) = none := by
    rw [List.find?_eq_none]
    intro x hx hxq
    simp only [decide_eq_true_eq] at hxq
    exact h (hxq ▸ List.mem_map_of_mem Prod.fst hx)
  rw [hf]
  rfl

theorem mem_of_dget_some {α : Type} {d : PyDict α} {q : String} {v : α}
    (h : dget d q = some v) : q ∈ d.map Prod.fst := by
  rw [dget] at h
  cases hr : d.find? (fun p => decide (p.1 = q)) with
  | none =>
    rw [hr] at h
    exact absurd h (by simp)
  | some r =>
    have hrq : r.1 = q := by simpa using List.find?_some hr
    exact hrq ▸ List.mem_map_of_mem Prod.fst (List.mem_of_find?_eq_some hr)

/-- Assigning key `k` makes lookup of `k` give the new value, whether the
key was present (value rebound in place) or not (entry appended). -/
theorem dget_dset_self {α : Type} (d : PyDict α) (k : String) (v : α) :
    dget (dset d k v) k = some v := by
  rw [dset]
  by_cases hmem : d.any (fun p => p.1 = k)
  · rw [if_pos hmem, dget, List.find?_map]
    have hpr : ((fun (p : String × α) => decide (p.1 = k)) ∘
          (fun p => if p.1 = k then (k, v) else p))
        = (fun (p : String × α) => decide (p.1 = k)) := by
      funext p
      by_cases hp : p.1 = k <;> simp [hp]
    rw [hpr]
    obtain ⟨r, hr⟩ : ∃ r, d.find? (fun p => decide (p.1 = k)) = some r := by
      rw [← Option.isSome_iff_exists, List.find?_isSome]
      rw [List.any_eq_true] at hmem
      exact hmem
    rw [hr]
    have hrk : r.1 = k := by simpa using List.find?_some hr
    simp [hrk]
  · rw [if_neg hmem, dget, List.find?_append]
    have hnone : d.find? (fun p => decide (p.1 = k)) = none := by
      rw [List.find?_eq_none]
      intro x hx hxk
      exact hmem (List.any_eq_true.mpr ⟨x, hx, hxk⟩)
    rw [hnone]
    simp

/-- Assigning key `k` leaves lookup of any other key unchanged. -/
theorem dget_dset_other {α : Type} (d : PyDict α) (k : String) (v : α)
    (q : String) (hq : q ≠ k) :
    dget (dset d k v) q = dget d q := by
  rw [dset]
  by_cases hmem : d.any (fun p => p.1 = k)
  · rw [if_pos hmem, dget, List.find?_map]
    have hpr : ((fun (p : String × α) => decide (p.1 = q)) ∘
          (fun p => if p.1 = k then (k, v) else p))
        = (fun (p : String × α) => decide (p.1 = q)) := by
      funext p
      by_cases hp : p.1 = k <;> simp [hp, Ne.symm hq]
    rw [hpr]
    cases hr : d.find? (fun p => decide (p.1 = q)) with
    | none => simp [dget, hr]
    | some r =>
      have hrq : r.1 = q := by simpa using List.find?_some hr
      have hrk : ¬ r.1 = k := by
        rw [hrq]
        exact hq
      simp [dget, hr, hrk]
  · rw [if_neg hmem, dget, List.find?_append]
    have h2 : List.find? (fun (p : String × α) => decide (p.1 = q)) [(k, v)]
        = none := by
      simp [Ne.symm hq]
    rw [h2]
    simp [dget]

/-- Lookup in a merged dict: the override's binding wins when present,
otherwise the base's binding shows through.  (`Nodup` on the override's
keys holds for every Python dict, whose keys are unique by construction.) -/
theorem dget_merge_dicts {α : Type} :
    ∀ (ov base : PyDict α), (ov.map Prod.fst).Nodup →
      ∀ q, dget (merge_dicts base ov) q = (dget ov q).or (dget base q) := by
  intro ov
  induction ov with
  | nil =>
    intro base _ q
    simp [merge_dicts, dget]
  | cons p ps ih =>
    intro base hnd q
    rw [List.map_cons, List.nodup_cons] at hnd
    obtain ⟨hnotin, hnd'⟩ := hnd
    rw [merge_dicts, List.foldl_cons, ← merge_dicts, ih (dset base p.1 p.2) hnd' q]
    by_cases hq : q = p.1
    · have hps : dget ps q = none := dget_eq_none ps q (by rw [hq]; exact hnotin)
      have hd : dget (dset base p.1 p.2) q = some p.2 := by
        rw [hq]
        exact dget_dset_self base p.1 p.2
      have hh : dget (p :: ps) q = some p.2 := by
        rw [dget, List.find?_cons_of_pos _ (by simp [hq])]
        rfl
      rw [hps, hd, hh]
      simp
    · have hh : dget (p :: ps) q = dget ps q := by
        rw [dget, List.find?_cons_of_neg _ (by simp [Ne.symm hq])]
        rfl
      rw [dget_dset_other base p.1 p.2 q hq, hh]

/-! ## C8: shallow merge, later source wins -/

/-- C8: merging `base` then `override` yields a mapping whose lookup is
the override's binding when the key is in the override and the base's
binding otherwise — so it contains every key of both and the override's
value on collisions; merging `{a:1}` then `{a:2, b:3}` yields exactly
`{a:2, b:3}`; and for key-disjoint dicts the merge is order-commutative as
a mapping. -/
theorem c8_merge_shallow_last_wins (α : Type) :
    (∀ (base ov : PyDict α), (ov.map Prod.fst).Nodup →
        ∀ q, dget (merge_dicts base ov) q = (dget ov q).or (dget base q))
    ∧ merge_dicts [("a", 1)] [("a", 2), ("b", 3)] = [("a", 2), ("b", 3)]
    ∧ (∀ (d1 d2 : PyDict α), (d1.map Prod.fst).Nodup →
        (d2.map Prod.fst).Nodup →
        (∀ x ∈ d1.map Prod.fst, x ∉ d2.map Prod.fst) →
        ∀ q, dget (merge_dicts d1 d2) q = dget (merge_dicts d2 d1) q) := by
  refine ⟨fun base ov hnd q => dget_merge_dicts ov base hnd q, by decide,
    fun d1 d2 h1 h2 hdisj q => ?_⟩
  rw [dget_merge_dicts d2 d1 h2 q, dget_merge_dicts d1 d2 h1 q]
  cases hk : dget d1 q with
  | none => simp [hk]
  | some v =>
    have hq2 : dget d2 q = none :=
      dget_eq_none d2 q (hdisj q (mem_of_dget_some hk))
    simp [hk, hq2]

/-- C8 witness: the override's binding of "a" wins over the base's, and
for the key-disjoint dicts `{a:1}` and `{b:2}` the two merge orders agree
at "b". -/
theorem c8_witness :
    dget (merge_dicts [("a", 1)] [("a", 2), ("b", 3)]) "a"
        = (dget [("a", 2), ("b", 3)] "a").or (dget [("a", 1)] "a")
      ∧ dget (merge_dicts [("a", 1)] [("b", 2)]) "b"
        = dget (merge_dicts [("b", 2)] [("a", 1)]) "b" :=
  ⟨(c8_merge_shallow_last_wins Nat).1 [("a", 1)] [("a", 2), ("b", 3)]
      (by decide) "a",
   (c8_merge_shallow_last_wins Nat).2.2 [("a", 1)] [("b", 2)] (by decide)
      (by decide) (by decide) "b"⟩

/-! ## C2: archive cleanup happens only on the success path -/

/-- C2 (counterexample to the claim as stated): in a run whose login
fails, the error propagates out of `main` before the cleanup line is
reached — the `os.remove(tmp_zip)` sits at the end of `main`'s body, not
in a `finally` — so the temporary archive is NOT removed on this failure
path, even though removal would have succeeded (`removeOk = true`). -/
theorem c2_counterexample :
    mainRun "dep-1" true true
        ⟨.error (.authHttpError 401 "http://mgr/api/v3.1/tokens" "unauthorized"),
         .ok (), .ok true, .ok (), .ok "e1", .ok (), true⟩
      = ⟨.error (.authHttpError 401 "http://mgr/api/v3.1/tokens" "unauthorized"),
         false, false⟩ :=
  rfl

/-- C2 (amended): the temporary archive path is derived from the blueprint
id; its removal is attempted exactly when every pipeline stage succeeded —
on every failure path the removal is skipped — and when it is attempted, a
failure of the removal itself is non-fatal and silently ignored: the
run's result is the same whether the removal succeeds or not, and the file
is actually gone only when the attempt was made and `os.remove`
succeeded. -/
theorem c2_cleanup_only_on_success (did : String) (cim w : Bool)
    (o : RunOutcomes) :
    ((mainRun did cim w o).result = .ok ()
        ↔ (mainRun did cim w o).removeAttempted = true)
    ∧ (mainRun did cim w o).result
        = (mainRun did cim w
            ⟨o.loginR, o.uploadR, o.existsR, o.createR, o.startR, o.waitR,
             !o.removeOk⟩).result
    ∧ (mainRun did cim w o).removed
        = ((mainRun did cim w o).removeAttempted && o.removeOk)
    ∧ (∀ bid : String, tmp_zip bid = "/tmp/" ++ bid ++ ".zip") := by
  obtain ⟨lg, up, ex, cr, st, wt, rm⟩ := o
  cases lg with
  | error e => exact ⟨by simp [mainRun], rfl, rfl, fun _ => rfl⟩
  | ok tok =>
  cases up with
  | error e => exact ⟨by simp [mainRun], rfl, rfl, fun _ => rfl⟩
  | ok u =>
  cases ex with
  | error e => exact ⟨by simp [mainRun], rfl, rfl, fun _ => rfl⟩
  | ok b =>
  cases b with
  | false =>
    cases cim with
    | false => exact ⟨by simp [mainRun], rfl, rfl, fun _ => rfl⟩
    | true =>
      cases cr with
      | error e => exact ⟨by simp [mainRun], rfl, rfl, fun _ => rfl⟩
      | ok c =>
        cases st with
        | error e => exact ⟨by simp [mainRun], rfl, rfl, fun _ => rfl⟩
        | ok x =>
          cases w with
          | false => exact ⟨by simp [mainRun], rfl, rfl, fun _ => rfl⟩
          | true =>
            cases wt with
            | error e => exact ⟨by simp [mainRun], rfl, rfl, fun _ => rfl⟩
            | ok y => exact ⟨by simp [mainRun], rfl, rfl, fun _ => rfl⟩
  | true =>
    cases st with
    | error e => exact ⟨by simp [mainRun], rfl, rfl, fun _ => rfl⟩
    | ok x =>
      cases w with
      | false => exact ⟨by simp [mainRun], rfl, rfl, fun _ => rfl⟩
      | true =>
        cases wt with
        | error e => exact ⟨by simp [mainRun], rfl, rfl, fun _ => rfl⟩
        | ok y => exact ⟨by simp [mainRun], rfl, rfl, fun _ => rfl⟩

/-- C2 witness: a fully successful run attempts the removal, and its
result stays success even when `os.remove` fails. -/
theorem c2_witness :
    ((mainRun "dep-1" true true
        ⟨.ok "tok", .ok (), .ok true, .ok (), .ok "e1", .ok (), false⟩).result
          = .ok ()
        ↔ (mainRun "dep-1" true true
            ⟨.ok "tok", .ok (), .ok true, .ok (), .ok "e1", .ok (),
             false⟩).removeAttempted = true)
      ∧ (mainRun "dep-1" true true
          ⟨.ok "tok", .ok (), .ok true, .ok (), .ok "e1", .ok (),
           false⟩).result
        = (mainRun "dep-1" true true
            ⟨.ok "tok", .ok (), .ok true, .ok (), .ok "e1", .ok (),
             !false⟩).result
      ∧ (mainRun "dep-1" true true
          ⟨.ok "tok", .ok (), .ok true, .ok (), .ok "e1", .ok (),
           false⟩).removed
        = ((mainRun "dep-1" true true
            ⟨.ok "tok", .ok (), .ok true, .ok (), .ok "e1", .ok (),
             false⟩).removeAttempted && false)
      ∧ (∀ bid : String, tmp_zip bid = "/tmp/" ++ bid ++ ".zip") :=
  c2_cleanup_only_on_success "dep-1" true true
    ⟨.ok "tok", .ok (), .ok true, .ok (), .ok "e1", .ok (), false⟩

end CloudifyDeploy
